import Mathlib

/-!
Verification of the Laughprop server core.

This file gives a shallow embedding, in Lean 4, of the parts of the
repository that the verified properties concern:

* `python/web_server.py` — the `WebMessageHandler` class: the session/game
  coordinator (client-id bindings, game membership, authoritative-client
  election, snapshot broadcasting, and the disconnect path).
* `python/web/image_dispatcher.py` — the `ImageDispatcherTask` class: the
  round-robin work dispatcher (`submit_request`), its result-draining loop
  (the body of `run`), and the TCP `on_connect` greeting.

Modelling conventions:

* Python `dict`s that are only read/written by key (`_ws_by_client_id`,
  `_client_id_by_ws`) are modelled as functions into `Option`; the dict
  `_client_ids_by_game_id`, whose iteration order is observable (first
  match wins in `_try_lookup_game_id`, and `_remove_from_games` walks it),
  is modelled as an association list in insertion order, mirroring the
  insertion-order iteration of Python 3.7+ dicts.
* Python `set`s of client ids are modelled as duplicate-free lists;
  `set.add` appends when absent, `set.remove` filters.
* Python values that may be `None` are modelled with `Option`; a dict
  lookup that can raise `KeyError` is modelled with `Except`.
* A `weakref.ref` to a WebSocket session is modelled by an opaque session
  identifier (`WsRef`); sessions are treated as live for the duration of a
  trace (weakly referenced sessions reclaimed by the garbage collector are
  outside the model).
* `print` logging has no observable effect and is not modelled; message
  sends are recorded as explicit effects.
-/

/-! ## Basic types -/

abbrev ClientId := String
abbrev GameId := String

/-- Opaque identifier standing for `weakref.ref(session)` of one WebSocket
session object. -/
abbrev WsRef := Nat

/-- Python exceptions that the embedded code can raise. -/
inductive PyError where
  | keyError
  | attributeError
  | notImplementedError
deriving DecidableEq, Repr

/-- Wire messages relevant to the coordinator (from
`python/networking/messages.py`). -/
inductive WireMsg where
  | hello (message : String)
  | unknownGame (game_id : GameId)
  | clientSnapshot (game_id : GameId) (client_ids : List ClientId)
  | authoritativeState (screen : String) (state_json : String)
deriving DecidableEq, Repr

/-- Observable network effect of a handler: a message delivered to a
client (through `_send_message`, which resolves the client id to its
WebSocket) or directly to a raw session (`session.send_str`). -/
inductive Effect where
  | sendToClient (c : ClientId) (m : WireMsg)
  | sendToWs (w : WsRef) (m : WireMsg)
deriving DecidableEq, Repr

/-- How a handler invocation finished: normal return, the explicit
log-and-ignore branch taken when the looked-up client id is `None`, or a
Python exception propagating out of the handler. -/
inductive Outcome where
  | ok
  | ignoredNoClientId
  | raised (e : PyError)
deriving DecidableEq, Repr

/-! ## Python-style lexicographic string order

`list.sort()` on Python strings orders them lexicographically by code
point. Lean's built-in `String` order is not kernel-reducible, so we
define the same order directly on the character data. -/

/-- Lexicographic code-point comparison of character lists. -/
def lexLe : List Char → List Char → Bool
  | [], _ => true
  | _ :: _, [] => false
  | a :: as, b :: bs =>
    if a.toNat < b.toNat then true
    else if b.toNat < a.toNat then false
    else lexLe as bs

/-- Lexicographic code-point comparison of strings, as used by Python's
`list.sort()` on `str`. -/
def strLe (a b : String) : Bool := lexLe a.data b.data

/-- The comparison as a decidable relation, for use with `insertionSort`. -/
def strLeP : String → String → Prop := fun a b => strLe a b = true

instance : DecidableRel strLeP :=
  fun a b => inferInstanceAs (Decidable (strLe a b = true))

/-! ## Dict and set primitives -/

/-- Pointwise update of a function-modelled dict: `m[k] = v` when
`v = some x`, `del m[k]` when `v = none`. -/
def fupd {α β : Type} [DecidableEq α] (m : α → Option β) (k : α) (v : Option β) :
    α → Option β :=
  fun q => if q = k then v else m q

/-- Lookup in the association-list-modelled games dict. -/
def tbl_get (t : List (GameId × List ClientId)) (g : GameId) : Option (List ClientId) :=
  match t with
  | [] => none
  | (k, v) :: rest => if k = g then some v else tbl_get rest g

/-- Assignment `t[g] = v` in the games dict: replace in place when the key
exists, append otherwise (Python dicts keep insertion order). -/
def tbl_set (t : List (GameId × List ClientId)) (g : GameId) (v : List ClientId) :
    List (GameId × List ClientId) :=
  match t with
  | [] => [(g, v)]
  | (k, w) :: rest => if k = g then (g, v) :: rest else (k, w) :: tbl_set rest g v

/-- Python `set.add` on a duplicate-free list. -/
def pySetAdd (s : List ClientId) (c : ClientId) : List ClientId :=
  if s.contains c then s else s ++ [c]

/-! ## Coordinator state (`WebMessageHandler.__init__`) -/

/-- The mutable state of `WebMessageHandler` (web_server.py, lines 36-40).
`client_id_by_ws` stores, per registered session, the Python value bound
to it — an inner `Option` because a Python dict slot can in principle hold
`None`, which the handlers test for explicitly. -/
structure CoordState where
  ws_by_client_id : ClientId → Option WsRef
  client_id_by_ws : WsRef → Option (Option ClientId)
  client_ids_by_game_id : List (GameId × List ClientId)

/-- A fresh `WebMessageHandler`: all three tables empty. -/
def initCoordState : CoordState :=
  { ws_by_client_id := fun _ => none
    client_id_by_ws := fun _ => none
    client_ids_by_game_id := [] }

/-- Result of invoking one handler: the successor state, the sends it
performed, and how it finished. -/
structure HandlerResult where
  st : CoordState
  effects : List Effect
  outcome : Outcome

/-! ## Coordinator helpers (web_server.py, lines 134-187) -/

/-- `_try_lookup_client_id` (line 134-135): indexes `_client_id_by_ws`
directly, so an unregistered session raises `KeyError`; otherwise the
stored value (possibly Python `None`) is returned. -/
def try_lookup_client_id (st : CoordState) (w : WsRef) : Except PyError (Option ClientId) :=
  match st.client_id_by_ws w with
  | none => Except.error PyError.keyError
  | some v => Except.ok v

/-- `_try_lookup_game_id` (lines 137-141): first game, in dict order,
whose member set contains the client id; `None` when there is none. -/
def try_lookup_game_id (st : CoordState) (c : ClientId) : Option GameId :=
  match st.client_ids_by_game_id.find? (fun p => p.2.contains c) with
  | some p => some p.1
  | none => none

/-- The same lookup applied to a possibly-`None` client id (`None` is a
member of no set). -/
def try_lookup_game_id_val (st : CoordState) (co : Option ClientId) : Option GameId :=
  match co with
  | none => none
  | some c => try_lookup_game_id st c

/-- Python's `client_ids.sort()` on a list of strings. -/
def sortClientIds (l : List ClientId) : List ClientId :=
  List.insertionSort strLeP l

/-- `_try_get_authoritative_client_id` (lines 143-151): `None` for an
unknown game id; otherwise sort the members and take the first, or `None`
when the set is empty. -/
def try_get_authoritative_client_id (st : CoordState) (g : GameId) : Option ClientId :=
  match tbl_get st.client_ids_by_game_id g with
  | none => none
  | some cids => (sortClientIds cids).head?

/-- `_send_message` (lines 153-159): silently does nothing when the client
id has no WebSocket registered; otherwise delivers (sessions are modelled
as live, see the module header). -/
def send_message (st : CoordState) (c : ClientId) (m : WireMsg) : List Effect :=
  match st.ws_by_client_id c with
  | none => []
  | some _ => [Effect.sendToClient c m]

/-- `_send_client_snapshot` (lines 161-166): when the game exists, build
one `ClientSnapshotMessage` carrying the full member list and send it to
each member. -/
def send_client_snapshot (st : CoordState) (g : GameId) : List Effect :=
  match tbl_get st.client_ids_by_game_id g with
  | none => []
  | some cids =>
    (cids.map (fun c => send_message st c (WireMsg.clientSnapshot g cids))).flatten

/-- `_game_exists` (lines 186-187). -/
def game_exists (st : CoordState) (g : GameId) : Bool :=
  (tbl_get st.client_ids_by_game_id g).isSome

/-- `_send_client_snapshots` (lines 177-181): snapshot each distinct game
id in the list that still exists. -/
def send_client_snapshots (st : CoordState) (gs : List GameId) : List Effect :=
  ((gs.dedup).map (fun g =>
    if game_exists st g then send_client_snapshot st g else [])).flatten

/-- `_remove_from_games` (lines 168-175): remove the client id from every
game's member set, returning the ids of the games it was removed from. -/
def remove_from_games (st : CoordState) (c : ClientId) :
    CoordState × List GameId :=
  let modified :=
    (st.client_ids_by_game_id.filter (fun p => p.2.contains c)).map Prod.fst
  let table := st.client_ids_by_game_id.map (fun p => (p.1, p.2.filter (· ≠ c)))
  ({ st with client_ids_by_game_id := table }, modified)

/-- `_purge_dead_games` (lines 183-184): drop games with no members. -/
def purge_dead_games (st : CoordState) : CoordState :=
  { st with client_ids_by_game_id :=
      st.client_ids_by_game_id.filter (fun p => !p.2.isEmpty) }

/-! ## Coordinator handlers (web_server.py, lines 42-132) -/

/-- `handle_HelloMessage` (lines 55-59): reply on the raw session. -/
def handle_HelloMessage (st : CoordState) (w : WsRef) : HandlerResult :=
  ⟨st, [Effect.sendToWs w (WireMsg.hello "Hello from web server")], Outcome.ok⟩

/-- `handle_ClientIDMessage` (lines 61-67): bind both directions of the
ClientID-session mapping, overwriting any previous binding. -/
def handle_ClientIDMessage (st : CoordState) (w : WsRef) (c : ClientId) : HandlerResult :=
  ⟨{ st with
      ws_by_client_id := fupd st.ws_by_client_id c (some w)
      client_id_by_ws := fupd st.client_id_by_ws w (some (some c)) },
    [], Outcome.ok⟩

/-- `handle_StartNewGameMessage` (lines 69-84): look up the sender (may
raise `KeyError`), ignore if `None`, reject when the game id already
exists, otherwise create the game with the sender as sole member and
send it a snapshot. The sender is not removed from any game it is
already in. -/
def handle_StartNewGameMessage (st : CoordState) (w : WsRef) (gid : GameId) :
    HandlerResult :=
  match try_lookup_client_id st w with
  | Except.error e => ⟨st, [], Outcome.raised e⟩
  | Except.ok none => ⟨st, [], Outcome.ignoredNoClientId⟩
  | Except.ok (some c) =>
    if game_exists st gid then ⟨st, [], Outcome.ok⟩
    else
      let st1 := { st with
        client_ids_by_game_id := tbl_set st.client_ids_by_game_id gid [c] }
      ⟨st1, send_client_snapshot st1 gid, Outcome.ok⟩

/-- `handle_JoinGameMessage` (lines 86-111): look up the sender, reply
`UnknownGame` when the game does not exist, otherwise remove the sender
from all games, purge empty games, add it to the requested game (an
indexing step that raises `KeyError` when the purge just deleted that
game), and snapshot every modified game. -/
def handle_JoinGameMessage (st : CoordState) (w : WsRef) (gid : GameId) :
    HandlerResult :=
  match try_lookup_client_id st w with
  | Except.error e => ⟨st, [], Outcome.raised e⟩
  | Except.ok none => ⟨st, [], Outcome.ignoredNoClientId⟩
  | Except.ok (some c) =>
    if game_exists st gid then
      let r1 := remove_from_games st c
      let st2 := purge_dead_games r1.1
      match tbl_get st2.client_ids_by_game_id gid with
      | none => ⟨st2, [], Outcome.raised PyError.keyError⟩
      | some cids =>
        let st3 := { st2 with
          client_ids_by_game_id :=
            tbl_set st2.client_ids_by_game_id gid (pySetAdd cids c) }
        ⟨st3, send_client_snapshots st3 (r1.2 ++ [gid]), Outcome.ok⟩
    else
      ⟨st, send_message st c (WireMsg.unknownGame gid), Outcome.ok⟩

/-- `handle_AuthoritativeStateMessage` (lines 113-132): look up the sender
and its game, ignore when either is missing, silently discard the message
when the sender is not the elected authoritative client, otherwise
forward it to every member of the game (the sender included). -/
def handle_AuthoritativeStateMessage (st : CoordState) (w : WsRef)
    (screen state_json : String) : HandlerResult :=
  match try_lookup_client_id st w with
  | Except.error e => ⟨st, [], Outcome.raised e⟩
  | Except.ok co =>
    match co with
    | none => ⟨st, [], Outcome.ignoredNoClientId⟩
    | some c =>
      match try_lookup_game_id st c with
      | none => ⟨st, [], Outcome.ok⟩
      | some g =>
        if try_get_authoritative_client_id st g = some c then
          match tbl_get st.client_ids_by_game_id g with
          | none => ⟨st, [], Outcome.raised PyError.keyError⟩
          | some cids =>
            ⟨st, (cids.map (fun i =>
              send_message st i (WireMsg.authoritativeState screen state_json))).flatten,
              Outcome.ok⟩
        else ⟨st, [], Outcome.ok⟩

/-- `remove_session` (lines 42-53): when the session has a non-`None`
client id, unbind both directions, remove the client from all games,
purge empty games, and snapshot the modified games. -/
def remove_session (st : CoordState) (w : WsRef) : CoordState × List Effect :=
  match st.client_id_by_ws w with
  | none => (st, [])
  | some none => (st, [])
  | some (some c) =>
    let st1 := { st with client_id_by_ws := fupd st.client_id_by_ws w none }
    let st2 :=
      if (st1.ws_by_client_id c).isSome then
        { st1 with ws_by_client_id := fupd st1.ws_by_client_id c none }
      else st1
    let r := remove_from_games st2 c
    let st3 := purge_dead_games r.1
    (st3, send_client_snapshots st3 r.2)

/-! ## Event system -/

/-- One externally triggered coordinator event: an incoming message from a
session, or the disconnect of a session. -/
inductive Event where
  | helloMsg (w : WsRef)
  | clientID (w : WsRef) (c : ClientId)
  | startNewGame (w : WsRef) (g : GameId)
  | joinGame (w : WsRef) (g : GameId)
  | authState (w : WsRef) (screen state_json : String)
  | disconnect (w : WsRef)

/-- Dispatch one event to its handler. -/
def step (st : CoordState) (e : Event) : HandlerResult :=
  match e with
  | Event.helloMsg w => handle_HelloMessage st w
  | Event.clientID w c => handle_ClientIDMessage st w c
  | Event.startNewGame w g => handle_StartNewGameMessage st w g
  | Event.joinGame w g => handle_JoinGameMessage st w g
  | Event.authState w s j => handle_AuthoritativeStateMessage st w s j
  | Event.disconnect w =>
    let r := remove_session st w
    ⟨r.1, r.2, Outcome.ok⟩

/-- Apply a sequence of events, keeping only the state. -/
def runEvents (st : CoordState) (evs : List Event) : CoordState :=
  evs.foldl (fun s e => (step s e).st) st

/-- Member list of a game (empty when the game does not exist). -/
def membersOf (st : CoordState) (g : GameId) : List ClientId :=
  (tbl_get st.client_ids_by_game_id g).getD []

/-! ## Work dispatcher (`python/web/image_dispatcher.py`) -/

/-- `ImageRequestType` (line 31). -/
inductive ImageRequestType where
  | txt2img
  | depth2img
deriving DecidableEq, Repr

/-- The `ImageRequest` dataclass (lines 34-40); the PIL image payload is
opaque to the dispatcher and modelled as a string. -/
structure ImageRequest where
  request_id : String
  request_type : ImageRequestType
  prompt : String
  negative_prompt : String
  input_image : String
deriving DecidableEq, Repr

/-- The `ImageResult` dataclass (lines 42-46). Its fields are exactly
`failed`, `images` and `request`; it has no `request_id` field. -/
structure ImageResult where
  failed : Bool
  images : List String
  request : ImageRequest
deriving DecidableEq, Repr

/-- The field names the `ImageResult` dataclass declares; an attribute
access outside this list raises `AttributeError`. -/
def imageResultFieldNames : List String := ["failed", "images", "request"]

/-- The dispatcher-visible state of `ImageDispatcherTask` (lines 180-188):
one inbound request queue per `WebEndpoint` worker, in `_web_threads`
order, plus the round-robin index `_next_web_idx` (initialized to 0). -/
structure ImageDispatcherTask where
  request_queues : List (List ImageRequest)
  next_web_idx : Nat
deriving DecidableEq, Repr

/-- A freshly constructed dispatcher over `n` backends (the constructor
asserts `n > 0`): empty queues, index 0. -/
def initDispatcher (n : Nat) : ImageDispatcherTask :=
  { request_queues := List.replicate n [], next_web_idx := 0 }

/-- `ImageDispatcherTask.submit_request` (lines 233-238): enqueue the
request on the worker at position `_next_web_idx % len(_web_threads)`.
The method performs no other state change; in particular it does not
modify `_next_web_idx`. -/
def submit_request (st : ImageDispatcherTask) (req : ImageRequest) :
    ImageDispatcherTask :=
  let i := st.next_web_idx % st.request_queues.length
  { st with request_queues := st.request_queues.set i (st.request_queues.getD i [] ++ [req]) }

/-- A sequence of `submit_request` calls. -/
def submit_many (st : ImageDispatcherTask) (reqs : List ImageRequest) :
    ImageDispatcherTask :=
  reqs.foldl submit_request st

/-- Observable effect of one iteration of the dispatcher's result loop. -/
inductive DispatchEffect where
  | completion_invoked (r : ImageResult)
  | resubmitted (req : ImageRequest)
  | error_logged
deriving DecidableEq, Repr

/-- The body of `ImageDispatcherTask.run` for one drained result (lines
205-213). On a failed result the code first evaluates
`result.request_id` inside the logging call; `ImageResult` declares no
such field, so the access raises `AttributeError`, which the enclosing
`except Exception` clause catches and logs, ending the iteration. On a
successful result the completion is awaited with the result. -/
def process_result (st : ImageDispatcherTask) (result : ImageResult) :
    ImageDispatcherTask × List DispatchEffect :=
  if result.failed then
    if imageResultFieldNames.contains "request_id" then
      (submit_request st result.request, [DispatchEffect.resubmitted result.request])
    else
      (st, [DispatchEffect.error_logged])
  else
    (st, [DispatchEffect.completion_invoked result])

/-- `ImageDispatcherTask.on_connect` (lines 246-252): log, send the Hello
banner on the session, then unconditionally raise `NotImplementedError`.
The pair returned is the list of messages sent and the exception the
coroutine finishes with (`none` would mean a normal return). -/
def on_connect (system release : String) : List WireMsg × Option PyError :=
  ([WireMsg.hello ("Hello from SDGame web server running on " ++ system ++ " " ++ release)],
    some PyError.notImplementedError)

/-! ## Well-formedness predicates over the coordinator state -/

/-- The two identity maps are exact mutual inverses and no session is
bound to the Python value `None`. -/
def mapsInverse (st : CoordState) : Prop :=
  (∀ w c, st.client_id_by_ws w = some (some c) ↔ st.ws_by_client_id c = some w) ∧
  (∀ w, st.client_id_by_ws w ≠ some none)

/-- A ClientID binding is fresh when neither the claimed client id nor
the binding session is currently mapped; every other event is
unconstrained. -/
def freshBind (st : CoordState) (e : Event) : Bool :=
  match e with
  | Event.clientID w c =>
    (st.ws_by_client_id c).isNone && (st.client_id_by_ws w).isNone
  | _ => true

/-- Every ClientID binding in the sequence is fresh at the state in which
it is applied. -/
def freshSeq (st : CoordState) : List Event → Bool
  | [] => true
  | e :: rest => freshBind st e && freshSeq (step st e).st rest

/-- The games dict has no duplicate keys (automatic for a Python dict;
needed because the model uses an association list). -/
def nodupGameKeys (st : CoordState) : Prop :=
  (st.client_ids_by_game_id.map Prod.fst).Nodup

/-- No client id is a member of two games (the documented membership
invariant of the data model). -/
def disjointGames (st : CoordState) : Prop :=
  st.client_ids_by_game_id.Pairwise (fun p q => ∀ x ∈ p.2, x ∉ q.2)

/-- No game entry has an empty member set (the documented purge
invariant of the data model). -/
def noEmptyGames (st : CoordState) : Prop :=
  ∀ p ∈ st.client_ids_by_game_id, p.2 ≠ []

/-! ## Concrete traces used by counterexamples and bug demonstrations -/

/-- A concrete coordinator with client A (session 1) in game g, used to
witness C7. -/
def c7st : CoordState :=
  runEvents initCoordState [Event.clientID 1 "A", Event.startNewGame 1 "g"]

/-- A concrete coordinator whose game g has members [b, a], used to
witness C5. -/
def c5st : CoordState :=
  { initCoordState with client_ids_by_game_id := [("g", ["b", "a"])] }

/-- A concrete coordinator where client A (session 1) is the
authoritative member of game g and fellow member B (session 2) has a
registered session; used to witness C4. -/
def c4wit : CoordState :=
  runEvents initCoordState
    [Event.clientID 1 "A", Event.startNewGame 1 "g",
     Event.clientID 2 "B", Event.joinGame 2 "g"]

/-- An event sequence with only fresh bindings, used to witness C8. -/
def c8witEvents : List Event :=
  [Event.clientID 1 "A", Event.clientID 2 "B", Event.disconnect 1]

/-- A concrete coordinator with clients A and B in game g, used to
witness C6. -/
def c6wit : CoordState :=
  runEvents initCoordState
    [Event.clientID 1 "A", Event.startNewGame 1 "g",
     Event.clientID 2 "B", Event.joinGame 2 "g"]

/-- Client A binds on session 1, starts game g1, then starts game g2
without ever leaving g1. -/
def c1Trace : CoordState :=
  runEvents initCoordState
    [Event.clientID 1 "A", Event.startNewGame 1 "g1", Event.startNewGame 1 "g2"]

/-- Session 1 binds client id A, then binds client id B. -/
def c8Trace : CoordState :=
  runEvents initCoordState [Event.clientID 1 "A", Event.clientID 1 "B"]

/-- Client id A is bound by session 1 and again by session 2; session 1
then disconnects, which deletes `_ws_by_client_id["A"]` while session 2's
`_client_id_by_ws` entry for A survives. -/
def c6Trace : CoordState :=
  runEvents initCoordState
    [Event.clientID 1 "A", Event.clientID 2 "A", Event.disconnect 1]

/-- Client id Z ends up a member of game G with no registered session
(same stale-binding preparation as `c6Trace`), after which client B joins
G on session 3 and is the lexicographically smallest member. -/
def c4Trace : CoordState :=
  runEvents initCoordState
    [Event.clientID 1 "Z", Event.clientID 2 "Z", Event.disconnect 1,
     Event.startNewGame 2 "G", Event.clientID 3 "B", Event.joinGame 3 "G"]

/-- A fixed request used to exercise the dispatcher. -/
def mkReq (i : String) : ImageRequest :=
  { request_id := i, request_type := ImageRequestType.txt2img,
    prompt := "p", negative_prompt := "n", input_image := "img" }

/-! ## Claim theorems -/

/-- C1: the claim that every client id appears in at most one game's
member set under all Start/Join/disconnect sequences is violated by the
code: `handle_StartNewGameMessage` never removes the starting client from
its prior games, so after client A starts g1 and then starts g2, A is a
member of both g1 and g2 simultaneously. -/
theorem c1_membership_invariant_violated :
    (membersOf c1Trace "g1").contains "A" = true ∧
    (membersOf c1Trace "g2").contains "A" = true := by decide

/-- C2: the claim that the round-robin index advances by one modulo N on
each submission is violated: `submit_request` reads `_next_web_idx` but
never increments it, so with N = 2 backends, two submissions both land on
backend 0 (queue lengths [2, 0], not [1, 1]) and the index stays 0. -/
theorem c2_round_robin_index_never_advances :
    (submit_many (initDispatcher 2) [mkReq "r1", mkReq "r2"]).request_queues.map
        List.length = [2, 0] ∧
    (submit_many (initDispatcher 2) [mkReq "r1", mkReq "r2"]).next_web_idx = 0 := by
  decide

/-- C3: the claim that a failed result is resubmitted (and its completion
eventually invoked exactly once with a success) is violated: draining a
failed result evaluates `result.request_id`, which raises
`AttributeError` because `ImageResult` has no such field; the `except`
clause swallows it, so the iteration ends with only an error log — no
resubmission and no completion call — while a successful result does
invoke its completion. -/
theorem c3_failed_result_dropped_not_resubmitted :
    process_result (initDispatcher 2) ⟨true, [], mkReq "r1"⟩
        = (initDispatcher 2, [DispatchEffect.error_logged]) ∧
    process_result (initDispatcher 2) ⟨false, ["img"], mkReq "r1"⟩
        = (initDispatcher 2,
            [DispatchEffect.completion_invoked ⟨false, ["img"], mkReq "r1"⟩]) := by
  decide

/-- C10: for every accepted TCP connection, `on_connect` sends exactly the
Hello banner and then finishes by raising `NotImplementedError`, so no
image-client session over the TCP transport is ever serviced past the
greeting. -/
theorem c10_on_connect_always_raises (system release : String) :
    (on_connect system release).2 = some PyError.notImplementedError ∧
    (on_connect system release).1
      = [WireMsg.hello
          ("Hello from SDGame web server running on " ++ system ++ " " ++ release)] :=
  ⟨rfl, rfl⟩

/-- C4 counterexample: in `c4Trace`, client B (session 3) is identified,
in game G, and is G's elected authoritative client; yet its
AuthoritativeState message is forwarded only to B itself — fellow member
Z, whose client id has no registered session, receives nothing — so the
message is not forwarded to every member of the game. -/
theorem c4_relay_skips_member_without_session :
    c4Trace.client_id_by_ws 3 = some (some "B") ∧
    try_lookup_game_id c4Trace "B" = some "G" ∧
    try_get_authoritative_client_id c4Trace "G" = some "B" ∧
    (membersOf c4Trace "G").contains "Z" = true ∧
    (step c4Trace (Event.authState 3 "s" "j")).effects
      = [Effect.sendToClient "B" (WireMsg.authoritativeState "s" "j")] := by
  decide

/-- C6 counterexample: starting game G from `c6Trace` (where the starting
client id A has no `_ws_by_client_id` entry left) modifies G's membership
— A becomes its sole member — yet produces no send at all, so the
remaining member A is not sent the ClientSnapshot the claim promises. -/
theorem c6_snapshot_missed_member_without_session :
    (step c6Trace (Event.startNewGame 2 "G")).effects = [] ∧
    (membersOf (step c6Trace (Event.startNewGame 2 "G")).st "G").contains "A"
      = true := by
  decide

/-- C8 counterexample: after session 1 binds client id A and then rebinds
to client id B, `_ws_by_client_id` still maps A to session 1 while the
counterpart entry `_client_id_by_ws[session 1]` holds B, not A — one map
holds an entry whose counterpart in the other direction is absent. -/
theorem c8_rebinding_breaks_bidirectional_consistency :
    c8Trace.ws_by_client_id "A" = some 1 ∧
    c8Trace.client_id_by_ws 1 ≠ some (some "A") := by
  decide

/-- C9: a session that never sent a ClientID message has no entry in
`_client_id_by_ws`, so `_try_lookup_client_id` raises `KeyError` rather
than returning `None`; the StartNewGame, JoinGame and AuthoritativeState
handlers therefore exit by exception — never through their
client-id-is-`None` log-and-ignore branch — with the whole coordinator
state (the game-membership table included) unchanged. -/
theorem c9_unidentified_session_raises_keyerror (st : CoordState) (w : WsRef)
    (gid : GameId) (screen state_json : String)
    (h : st.client_id_by_ws w = none) :
    handle_StartNewGameMessage st w gid
        = ⟨st, [], Outcome.raised PyError.keyError⟩ ∧
    handle_JoinGameMessage st w gid
        = ⟨st, [], Outcome.raised PyError.keyError⟩ ∧
    handle_AuthoritativeStateMessage st w screen state_json
        = ⟨st, [], Outcome.raised PyError.keyError⟩ := by
  refine ⟨?_, ?_, ?_⟩ <;>
    simp [handle_StartNewGameMessage, handle_JoinGameMessage,
      handle_AuthoritativeStateMessage, try_lookup_client_id, h]

/-- Witness for C9 at a concrete input: the fresh coordinator has no
entry for session 0, and all three handlers raise `KeyError` there. -/
theorem c9_unidentified_session_raises_keyerror_witness :
    initCoordState.client_id_by_ws 0 = none ∧
    (handle_StartNewGameMessage initCoordState 0 "g"
        = ⟨initCoordState, [], Outcome.raised PyError.keyError⟩ ∧
      handle_JoinGameMessage initCoordState 0 "g"
        = ⟨initCoordState, [], Outcome.raised PyError.keyError⟩ ∧
      handle_AuthoritativeStateMessage initCoordState 0 "s" "j"
        = ⟨initCoordState, [], Outcome.raised PyError.keyError⟩) :=
  ⟨rfl, c9_unidentified_session_raises_keyerror initCoordState 0 "g" "s" "j" rfl⟩

/-- C7: for an identified client (bound in both direction maps), a
StartNewGame naming an existing game id is rejected with no state change,
no send and no exception, and a JoinGame naming a nonexistent game id is
rejected with no state change and no exception while an UnknownGame
message carrying that game id is sent back to the requester; in neither
case is any ClientSnapshot emitted. -/
theorem c7_precondition_violations_rejected (st : CoordState) (w : WsRef)
    (c : ClientId) (wr : WsRef) (gid gid2 : GameId)
    (hid : st.client_id_by_ws w = some (some c))
    (hws : st.ws_by_client_id c = some wr) :
    (game_exists st gid = true →
      handle_StartNewGameMessage st w gid = ⟨st, [], Outcome.ok⟩) ∧
    (game_exists st gid2 = false →
      handle_JoinGameMessage st w gid2
        = ⟨st, [Effect.sendToClient c (WireMsg.unknownGame gid2)], Outcome.ok⟩) := by
  constructor
  · intro hg
    simp [handle_StartNewGameMessage, try_lookup_client_id, hid, hg]
  · intro hg
    simp [handle_JoinGameMessage, try_lookup_client_id, hid, hg, send_message, hws]

/-- Witness for C7 at a concrete input: in `c7st`, client A is identified,
game g exists and game h does not; starting g is a no-op and joining h
replies UnknownGame h to A only. -/
theorem c7_precondition_violations_rejected_witness :
    (c7st.client_id_by_ws 1 = some (some "A") ∧
      c7st.ws_by_client_id "A" = some 1 ∧
      game_exists c7st "g" = true ∧ game_exists c7st "h" = false) ∧
    handle_StartNewGameMessage c7st 1 "g" = ⟨c7st, [], Outcome.ok⟩ ∧
    handle_JoinGameMessage c7st 1 "h"
      = ⟨c7st, [Effect.sendToClient "A" (WireMsg.unknownGame "h")], Outcome.ok⟩ :=
  ⟨by decide,
    (c7_precondition_violations_rejected c7st 1 "A" 1 "g" "h" (by decide) (by decide)).1
      (by decide),
    (c7_precondition_violations_rejected c7st 1 "A" 1 "g" "h" (by decide) (by decide)).2
      (by decide)⟩

/-! ## Properties of the lexicographic order and of sorting -/

theorem lexLe_refl : ∀ as : List Char, lexLe as as = true
  | [] => rfl
  | _ :: as => by simp [lexLe, lexLe_refl as]

theorem lexLe_total : ∀ as bs : List Char, lexLe as bs = true ∨ lexLe bs as = true
  | [], _ => Or.inl rfl
  | _ :: _, [] => Or.inr rfl
  | a :: as, b :: bs => by
    rcases Nat.lt_trichotomy a.toNat b.toNat with h | h | h
    · left; simp [lexLe, h]
    · have h1 : ¬ a.toNat < b.toNat := by omega
      have h2 : ¬ b.toNat < a.toNat := by omega
      rcases lexLe_total as bs with hh | hh
      · left; simp [lexLe, h1, h2, hh]
      · right; simp [lexLe, h1, h2, hh]
    · right; simp [lexLe, h]

theorem lexLe_trans : ∀ as bs cs : List Char,
    lexLe as bs = true → lexLe bs cs = true → lexLe as cs = true
  | [], _, _, _, _ => rfl
  | _ :: _, [], _, hab, _ => by simp [lexLe] at hab
  | _ :: _, _ :: _, [], _, hbc => by simp [lexLe] at hbc
  | a :: as, b :: bs, c :: cs, hab, hbc => by
    simp only [lexLe] at hab hbc ⊢
    by_cases h1 : a.toNat < b.toNat
    · by_cases h2 : b.toNat < c.toNat
      · have : a.toNat < c.toNat := by omega
        simp [this]
      · have h3 : ¬ c.toNat < b.toNat := by
          intro hcb
          simp [h2, hcb] at hbc
        have : a.toNat < c.toNat := by omega
        simp [this]
    · by_cases h1b : b.toNat < a.toNat
      · simp [h1, h1b] at hab
      · have hav : a.toNat = b.toNat := by omega
        by_cases h2 : b.toNat < c.toNat
        · have : a.toNat < c.toNat := by omega
          simp [this]
        · by_cases h2b : c.toNat < b.toNat
          · simp [h2, h2b] at hbc
          · have h3 : ¬ a.toNat < c.toNat := by omega
            have h4 : ¬ c.toNat < a.toNat := by omega
            rw [if_neg h1, if_neg h1b] at hab
            rw [if_neg h2, if_neg h2b] at hbc
            rw [if_neg h3, if_neg h4]
            exact lexLe_trans as bs cs hab hbc

theorem lexLe_antisymm : ∀ as bs : List Char,
    lexLe as bs = true → lexLe bs as = true → as = bs
  | [], [], _, _ => rfl
  | [], _ :: _, _, hba => by simp [lexLe] at hba
  | _ :: _, [], hab, _ => by simp [lexLe] at hab
  | a :: as, b :: bs, hab, hba => by
    simp only [lexLe] at hab hba
    by_cases h1 : a.toNat < b.toNat
    · have h2 : ¬ b.toNat < a.toNat := by omega
      simp [h1, h2] at hba
    · by_cases h2 : b.toNat < a.toNat
      · simp [h1, h2] at hab
      · have hv : a.toNat = b.toNat := by omega
        have ha : a = b := by
          apply Char.ext
          exact UInt32.toNat.inj hv
        rw [if_neg h1, if_neg h2] at hab
        rw [if_neg h2, if_neg h1] at hba
        rw [ha, lexLe_antisymm as bs hab hba]

theorem strLe_refl (a : String) : strLe a a = true := lexLe_refl a.data

theorem strLe_antisymm (a b : String) (h1 : strLe a b = true)
    (h2 : strLe b a = true) : a = b :=
  String.ext (lexLe_antisymm a.data b.data h1 h2)

instance : IsTotal String strLeP := ⟨fun a b => lexLe_total a.data b.data⟩

instance : IsTrans String strLeP :=
  ⟨fun a b c => lexLe_trans a.data b.data c.data⟩

/-- Sorting a nonempty list of client ids puts a least element (with
respect to the Python string order) at the head. -/
theorem sortClientIds_min (l : List ClientId) (h : l ≠ []) :
    ∃ m, (sortClientIds l).head? = some m ∧ m ∈ l ∧
      ∀ x ∈ l, strLe m x = true := by
  have hperm : (sortClientIds l).Perm l := List.perm_insertionSort _ l
  have hsorted : List.Sorted strLeP (sortClientIds l) :=
    List.sorted_insertionSort _ l
  cases hs : sortClientIds l with
  | nil =>
    exact absurd (List.Perm.eq_nil (hs ▸ hperm).symm).symm (Ne.symm h)
  | cons m t =>
    have hmem : ∀ x, x ∈ l ↔ x ∈ m :: t := by
      intro x
      rw [← hs]
      exact hperm.mem_iff.symm
    refine ⟨m, by simp, (hmem m).mpr (List.mem_cons_self m t), ?_⟩
    intro x hx
    rcases List.mem_cons.mp ((hmem x).mp hx) with rfl | hxt
    · exact strLe_refl x
    · exact List.rel_of_sorted_cons (hs ▸ hsorted) x hxt

/-- C5: for any coordinator state, the elected authoritative client of a
game with a non-empty member set is the lexicographically smallest member
(smallest under the Python code-point order on strings), independent of
the order in which members joined (any two permuted member lists elect
the same client); for a nonexistent game, or one with an empty member
set, the election yields none. -/
theorem c5_authoritative_is_lexicographic_min (st st2 : CoordState)
    (g g2 : GameId) :
    (∀ cids, tbl_get st.client_ids_by_game_id g = some cids → cids ≠ [] →
      ∃ m, try_get_authoritative_client_id st g = some m ∧ m ∈ cids ∧
        ∀ x ∈ cids, strLe m x = true) ∧
    (tbl_get st.client_ids_by_game_id g = none →
      try_get_authoritative_client_id st g = none) ∧
    (tbl_get st.client_ids_by_game_id g = some [] →
      try_get_authoritative_client_id st g = none) ∧
    (∀ cids cids2, tbl_get st.client_ids_by_game_id g = some cids →
      tbl_get st2.client_ids_by_game_id g2 = some cids2 → cids.Perm cids2 →
      try_get_authoritative_client_id st g
        = try_get_authoritative_client_id st2 g2) := by
  refine ⟨?_, ?_, ?_, ?_⟩
  · intro cids hget hne
    obtain ⟨m, hm1, hm2, hm3⟩ := sortClientIds_min cids hne
    exact ⟨m, by simp [try_get_authoritative_client_id, hget, hm1], hm2, hm3⟩
  · intro hget
    simp [try_get_authoritative_client_id, hget]
  · intro hget
    simp [try_get_authoritative_client_id, hget, sortClientIds,
      List.insertionSort]
  · intro cids cids2 h1 h2 hperm
    by_cases hc : cids = []
    · have hc2 : cids2 = [] := List.Perm.eq_nil (hc ▸ hperm).symm
      simp [try_get_authoritative_client_id, h1, h2, hc, hc2, sortClientIds,
        List.insertionSort]
    · have hc2 : cids2 ≠ [] := by
        intro hnil
        exact hc (List.Perm.eq_nil (hnil ▸ hperm))
      obtain ⟨m1, ha1, hb1, hmin1⟩ := sortClientIds_min cids hc
      obtain ⟨m2, ha2, hb2, hmin2⟩ := sortClientIds_min cids2 hc2
      have heq : m1 = m2 :=
        strLe_antisymm m1 m2 (hmin1 m2 (hperm.mem_iff.mpr hb2))
          (hmin2 m1 (hperm.mem_iff.mp hb1))
      simp [try_get_authoritative_client_id, h1, h2, ha1, ha2, heq]

/-- Witness for C5 at a concrete input: game g of `c5st` has the
non-empty member list [b, a] and elects a least member, and the
nonexistent game gx elects none. -/
theorem c5_authoritative_is_lexicographic_min_witness :
    (tbl_get c5st.client_ids_by_game_id "g" = some ["b", "a"] ∧
      (["b", "a"] : List ClientId) ≠ [] ∧
      tbl_get c5st.client_ids_by_game_id "gx" = none) ∧
    (∃ m, try_get_authoritative_client_id c5st "g" = some m ∧
      m ∈ (["b", "a"] : List ClientId) ∧
      ∀ x ∈ (["b", "a"] : List ClientId), strLe m x = true) ∧
    try_get_authoritative_client_id c5st "gx" = none :=
  ⟨by decide,
    (c5_authoritative_is_lexicographic_min c5st c5st "g" "g").1 ["b", "a"]
      (by decide) (by decide),
    (c5_authoritative_is_lexicographic_min c5st c5st "gx" "g").2.1 (by decide)⟩

/-! ## Helper lemmas about the games table -/

theorem mem_flatten_map {α β : Type} (f : α → List β) (l : List α) (a : α)
    (b : β) (ha : a ∈ l) (hb : b ∈ f a) : b ∈ (l.map f).flatten :=
  List.mem_flatten.mpr ⟨f a, List.mem_map_of_mem f ha, hb⟩

theorem tbl_get_isSome_of_mem {t : List (GameId × List ClientId)} {g : GameId}
    {v : List ClientId} (h : (g, v) ∈ t) : (tbl_get t g).isSome = true := by
  induction t with
  | nil => cases h
  | cons p rest ih =>
    obtain ⟨k, w⟩ := p
    rcases List.mem_cons.mp h with heq | hmem
    · cases heq
      simp [tbl_get]
    · by_cases hk : k = g
      · simp [tbl_get, hk]
      · simp only [tbl_get, if_neg hk]
        exact ih hmem

theorem tbl_get_exists_of_game_found {st : CoordState} {c : ClientId}
    {g : GameId} (hg : try_lookup_game_id st c = some g) :
    ∃ cids, tbl_get st.client_ids_by_game_id g = some cids := by
  unfold try_lookup_game_id at hg
  cases hfind : st.client_ids_by_game_id.find? (fun p => p.2.contains c) with
  | none => rw [hfind] at hg; cases hg
  | some pr =>
    rw [hfind] at hg
    have hkey : pr.1 = g := by
      cases hg
      rfl
    have hpr : (g, pr.2) ∈ st.client_ids_by_game_id := by
      rw [← hkey]
      exact List.mem_of_find?_eq_some hfind
    exact Option.isSome_iff_exists.mp (tbl_get_isSome_of_mem hpr)

/-- C4 (amended): an AuthoritativeState message from an identified,
in-game client that is not the elected authoritative id of its game is
forwarded to no session and changes no state; from the authoritative id
it is forwarded to every member of the game whose client id currently has
a registered session (members without one — the sender included — are
silently skipped by `_send_message`). -/
theorem c4_relay_exclusivity_amended (st : CoordState) (w : WsRef)
    (c : ClientId) (screen state_json : String) (g : GameId)
    (hid : st.client_id_by_ws w = some (some c))
    (hg : try_lookup_game_id st c = some g) :
    (try_get_authoritative_client_id st g ≠ some c →
      (handle_AuthoritativeStateMessage st w screen state_json).effects = [] ∧
      (handle_AuthoritativeStateMessage st w screen state_json).st = st) ∧
    (try_get_authoritative_client_id st g = some c →
      ∀ m ∈ membersOf st g, (st.ws_by_client_id m).isSome = true →
        Effect.sendToClient m (WireMsg.authoritativeState screen state_json)
          ∈ (handle_AuthoritativeStateMessage st w screen state_json).effects) := by
  constructor
  · intro hne
    simp [handle_AuthoritativeStateMessage, try_lookup_client_id, hid, hg, hne]
  · intro hauth m hm hws
    obtain ⟨cids, hcids⟩ := tbl_get_exists_of_game_found hg
    rw [membersOf, hcids, Option.getD_some] at hm
    obtain ⟨wr, hwr⟩ := Option.isSome_iff_exists.mp hws
    simp only [handle_AuthoritativeStateMessage, try_lookup_client_id, hid, hg,
      if_pos hauth, hcids]
    exact mem_flatten_map _ _ m _ hm (by simp [send_message, hwr])

/-- Witness for C4 (amended) at a concrete input: in `c4wit` the
authoritative client A relays a message and member B, which has a
registered session, receives it. -/
theorem c4_relay_exclusivity_amended_witness :
    (c4wit.client_id_by_ws 1 = some (some "A") ∧
      try_lookup_game_id c4wit "A" = some "g" ∧
      try_get_authoritative_client_id c4wit "g" = some "A" ∧
      "B" ∈ membersOf c4wit "g" ∧
      (c4wit.ws_by_client_id "B").isSome = true) ∧
    Effect.sendToClient "B" (WireMsg.authoritativeState "s" "j")
      ∈ (handle_AuthoritativeStateMessage c4wit 1 "s" "j").effects :=
  ⟨by decide,
    (c4_relay_exclusivity_amended c4wit 1 "A" "s" "j" "g" (by decide)
        (by decide)).2 (by decide) "B" (by decide) (by decide)⟩

/-! ## Bidirectional consistency of the identity maps -/

theorem mapsInverse_of_eq (st2 st : CoordState) (hinv : mapsInverse st)
    (h1 : st2.ws_by_client_id = st.ws_by_client_id)
    (h2 : st2.client_id_by_ws = st.client_id_by_ws) : mapsInverse st2 := by
  constructor
  · intro w c
    rw [h1, h2]
    exact hinv.1 w c
  · intro w
    rw [h2]
    exact hinv.2 w

theorem mapsInverse_step (st : CoordState) (e : Event) (hinv : mapsInverse st)
    (hf : freshBind st e = true) : mapsInverse (step st e).st := by
  cases e with
  | helloMsg w => exact hinv
  | clientID w c =>
    simp only [freshBind, Bool.and_eq_true, Option.isNone_iff_eq_none] at hf
    obtain ⟨hf1, hf2⟩ := hf
    constructor
    · intro w' c'
      show fupd st.client_id_by_ws w (some (some c)) w' = some (some c') ↔
        fupd st.ws_by_client_id c (some w) c' = some w'
      unfold fupd
      by_cases hw : w' = w <;> by_cases hc : c' = c
      · rw [if_pos hw, if_pos hc]
        constructor
        · intro _
          rw [hw]
        · intro _
          rw [hc]
      · rw [if_pos hw, if_neg hc]
        constructor
        · intro hx
          injection hx with h1
          injection h1 with h2
          exact (hc h2.symm).elim
        · intro hx
          rw [hw] at hx
          have h2 := (hinv.1 w c').mpr hx
          rw [hf2] at h2
          exact Option.noConfusion h2
      · rw [if_neg hw, if_pos hc]
        constructor
        · intro hx
          rw [hc] at hx
          have h2 := (hinv.1 w' c).mp hx
          rw [hf1] at h2
          exact Option.noConfusion h2
        · intro hx
          injection hx with h1
          exact (hw h1.symm).elim
      · rw [if_neg hw, if_neg hc]
        exact hinv.1 w' c'
    · intro w'
      show fupd st.client_id_by_ws w (some (some c)) w' ≠ some none
      unfold fupd
      by_cases hw : w' = w
      · rw [if_pos hw]
        intro hx
        injection hx with h1
        exact Option.noConfusion h1
      · rw [if_neg hw]
        exact hinv.2 w'
  | startNewGame w g =>
    refine mapsInverse_of_eq _ st hinv ?_ ?_ <;>
      · simp only [step]
        unfold handle_StartNewGameMessage
        split <;> try rfl
        split <;> rfl
  | joinGame w g =>
    refine mapsInverse_of_eq _ st hinv ?_ ?_ <;>
      · simp only [step]
        unfold handle_JoinGameMessage
        split <;> try rfl
        split <;> try rfl
        simp only []
        split <;> rfl
  | authState w s j =>
    refine mapsInverse_of_eq _ st hinv ?_ ?_ <;>
      · simp only [step]
        unfold handle_AuthoritativeStateMessage
        split <;> try rfl
        split <;> try rfl
        split <;> try rfl
        split <;> try rfl
        split <;> rfl
  | disconnect w =>
    show mapsInverse (remove_session st w).1
    cases hcw : st.client_id_by_ws w with
    | none =>
      unfold remove_session
      rw [hcw]
      exact hinv
    | some co =>
      cases co with
      | none =>
        unfold remove_session
        rw [hcw]
        exact hinv
      | some c =>
        have hws : st.ws_by_client_id c = some w := (hinv.1 w c).mp hcw
        unfold remove_session
        rw [hcw]
        simp only [hws, Option.isSome_some, if_true]
        constructor
        · intro w' c'
          show fupd st.client_id_by_ws w none w' = some (some c') ↔
            fupd st.ws_by_client_id c none c' = some w'
          unfold fupd
          by_cases hw : w' = w <;> by_cases hcq : c' = c
          · rw [if_pos hw, if_pos hcq]
            constructor
            · intro hx
              exact Option.noConfusion hx
            · intro hx
              exact Option.noConfusion hx
          · rw [if_pos hw, if_neg hcq]
            constructor
            · intro hx
              exact Option.noConfusion hx
            · intro hx
              rw [hw] at hx
              have h2 := (hinv.1 w c').mpr hx
              rw [hcw] at h2
              injection h2 with h3
              injection h3 with h4
              exact (hcq h4.symm).elim
          · rw [if_neg hw, if_pos hcq]
            constructor
            · intro hx
              rw [hcq] at hx
              have h2 := (hinv.1 w' c).mp hx
              rw [hws] at h2
              injection h2 with h3
              exact (hw h3.symm).elim
            · intro hx
              exact Option.noConfusion hx
          · rw [if_neg hw, if_neg hcq]
            exact hinv.1 w' c'
        · intro w'
          show fupd st.client_id_by_ws w none w' ≠ some none
          unfold fupd
          by_cases hw : w' = w
          · rw [if_pos hw]
            intro hx
            exact Option.noConfusion hx
          · rw [if_neg hw]
            exact hinv.2 w'

/-- The fresh coordinator satisfies the bidirectional-consistency
invariant. -/
theorem mapsInverse_init : mapsInverse initCoordState := by
  constructor
  · intro w c
    simp [initCoordState]
  · intro w
    simp [initCoordState]

/-- C8 (amended): under any event sequence in which every ClientID
binding is fresh — the binding session is not currently mapped and the
claimed client id is not currently mapped — the ClientID-to-session and
session-to-ClientID maps remain exact mutual inverses (in particular,
`remove_session` always removes the two directions together); rebinding
(the same session claiming a new id, or a second session claiming an id
in use) can instead leave a stale one-sided entry behind. -/
theorem c8_maps_mutually_consistent_amended (st : CoordState)
    (evs : List Event) (hinv : mapsInverse st)
    (hfresh : freshSeq st evs = true) : mapsInverse (runEvents st evs) := by
  induction evs generalizing st with
  | nil => exact hinv
  | cons e rest ih =>
    simp only [freshSeq, Bool.and_eq_true] at hfresh
    exact ih (step st e).st (mapsInverse_step st e hinv hfresh.1) hfresh.2

/-- Witness for C8 (amended) at a concrete input: a fresh-binding
sequence keeps the two maps mutual inverses. -/
theorem c8_maps_mutually_consistent_amended_witness :
    freshSeq initCoordState c8witEvents = true ∧
    mapsInverse (runEvents initCoordState c8witEvents) :=
  ⟨by decide,
    c8_maps_mutually_consistent_amended initCoordState c8witEvents
      mapsInverse_init (by decide)⟩

/-! ## More lemmas about the games table -/

theorem tbl_get_set_self (t : List (GameId × List ClientId)) (g : GameId)
    (v : List ClientId) : tbl_get (tbl_set t g v) g = some v := by
  induction t with
  | nil => simp [tbl_get, tbl_set]
  | cons p rest ih =>
    obtain ⟨k, w⟩ := p
    by_cases hk : k = g
    · simp [tbl_get, tbl_set, hk]
    · simp only [tbl_set, if_neg hk, tbl_get, ih]

theorem tbl_get_set_ne (t : List (GameId × List ClientId)) (g g2 : GameId)
    (v : List ClientId) (h : g2 ≠ g) :
    tbl_get (tbl_set t g v) g2 = tbl_get t g2 := by
  induction t with
  | nil => simp only [tbl_set, tbl_get, if_neg (Ne.symm h)]
  | cons p rest ih =>
    obtain ⟨k, w⟩ := p
    by_cases hk : k = g
    · subst hk
      simp only [tbl_set, if_pos rfl, tbl_get, if_neg (Ne.symm h)]
    · simp only [tbl_set, if_neg hk, tbl_get, ih]

theorem tbl_get_mapval (t : List (GameId × List ClientId)) (g : GameId)
    (f : List ClientId → List ClientId) :
    tbl_get (t.map (fun p => (p.1, f p.2))) g = (tbl_get t g).map f := by
  induction t with
  | nil => rfl
  | cons p rest ih =>
    obtain ⟨k, w⟩ := p
    by_cases hk : k = g
    · simp [tbl_get, hk]
    · simp only [List.map_cons, tbl_get, if_neg hk, ih]

theorem tbl_get_none_of_not_key (t : List (GameId × List ClientId))
    (g : GameId) (h : g ∉ t.map Prod.fst) : tbl_get t g = none := by
  induction t with
  | nil => rfl
  | cons p rest ih =>
    obtain ⟨k, w⟩ := p
    simp only [List.map_cons, List.mem_cons] at h
    push_neg at h
    simp only [tbl_get, if_neg (Ne.symm h.1)]
    exact ih h.2

theorem tbl_get_filter_none (P : GameId × List ClientId → Bool)
    (t : List (GameId × List ClientId)) (g : GameId)
    (h : tbl_get t g = none) : tbl_get (t.filter P) g = none := by
  induction t with
  | nil => rfl
  | cons p rest ih =>
    obtain ⟨k, w⟩ := p
    by_cases hk : k = g
    · subst hk
      simp only [tbl_get, if_pos rfl] at h
      cases h
    · simp only [tbl_get, if_neg hk] at h
      cases hP : P (k, w) with
      | true =>
        simp only [List.filter_cons, hP, if_true, tbl_get, if_neg hk]
        exact ih h
      | false =>
        simp only [List.filter_cons, hP, Bool.false_eq_true, if_false]
        exact ih h

theorem tbl_get_filter_some (P : GameId × List ClientId → Bool)
    (t : List (GameId × List ClientId)) (g : GameId) (v : List ClientId)
    (hkeys : (t.map Prod.fst).Nodup) (h : tbl_get t g = some v) :
    tbl_get (t.filter P) g = if P (g, v) then some v else none := by
  induction t with
  | nil => cases h
  | cons p rest ih =>
    obtain ⟨k, w⟩ := p
    simp only [List.map_cons, List.nodup_cons] at hkeys
    by_cases hk : k = g
    · subst hk
      simp only [tbl_get, if_pos rfl] at h
      injection h with h2
      subst h2
      cases hP : P (k, w) with
      | true =>
        simp only [List.filter_cons, hP, if_true, tbl_get, if_pos rfl]
      | false =>
        simp only [List.filter_cons, hP, Bool.false_eq_true, if_false]
        exact tbl_get_filter_none P rest k
          (tbl_get_none_of_not_key rest k hkeys.1)
    · simp only [tbl_get, if_neg hk] at h
      cases hP : P (k, w) with
      | true =>
        simp only [List.filter_cons, hP, if_true, tbl_get, if_neg hk]
        exact ih hkeys.2 h
      | false =>
        simp only [List.filter_cons, hP, Bool.false_eq_true, if_false]
        exact ih hkeys.2 h

theorem tbl_get_mem {t : List (GameId × List ClientId)} {g : GameId}
    {v : List ClientId} (h : tbl_get t g = some v) : (g, v) ∈ t := by
  induction t with
  | nil => cases h
  | cons p rest ih =>
    obtain ⟨k, w⟩ := p
    by_cases hk : k = g
    · subst hk
      simp only [tbl_get, if_pos rfl] at h
      injection h with h2
      subst h2
      exact List.mem_cons_self _ _
    · simp only [tbl_get, if_neg hk] at h
      exact List.mem_cons_of_mem _ (ih h)

theorem mem_modified_of_contains {t : List (GameId × List ClientId)}
    {g : GameId} {v : List ClientId} {c : ClientId}
    (hget : tbl_get t g = some v) (hc : c ∈ v) :
    g ∈ (t.filter (fun p => p.2.contains c)).map Prod.fst := by
  induction t with
  | nil => cases hget
  | cons p rest ih =>
    obtain ⟨k, w⟩ := p
    by_cases hk : k = g
    · subst hk
      simp only [tbl_get, if_pos rfl] at hget
      injection hget with h2
      subst h2
      have hcont : w.contains c = true := by
        simp [hc]
      rw [List.filter_cons, if_pos hcont]
      simp
    · simp only [tbl_get, if_neg hk] at hget
      cases hP : (w.contains c) with
      | true =>
        simp only [List.filter_cons, hP, if_true, List.map_cons, List.mem_cons]
        exact Or.inr (ih hget)
      | false =>
        simp only [List.filter_cons, hP, Bool.false_eq_true, if_false]
        exact ih hget

/-! ## Invariants and composition lemmas for snapshot completeness -/

theorem keys_mapval (t : List (GameId × List ClientId))
    (f : List ClientId → List ClientId) :
    ((t.map (fun p => (p.1, f p.2))).map Prod.fst) = t.map Prod.fst := by
  induction t with
  | nil => rfl
  | cons p rest ih => simp [ih]

theorem remove_purge_get_none (st : CoordState) (c0 : ClientId) (g : GameId)
    (hget : tbl_get st.client_ids_by_game_id g = none) :
    tbl_get (purge_dead_games
      (remove_from_games st c0).1).client_ids_by_game_id g = none := by
  apply tbl_get_filter_none
  show tbl_get (st.client_ids_by_game_id.map
    (fun p => (p.1, p.2.filter (· ≠ c0)))) g = none
  rw [tbl_get_mapval, hget]
  rfl

theorem remove_purge_get_some (st : CoordState) (c0 : ClientId) (g : GameId)
    (v : List ClientId) (hkeys : nodupGameKeys st)
    (hget : tbl_get st.client_ids_by_game_id g = some v) :
    tbl_get (purge_dead_games
        (remove_from_games st c0).1).client_ids_by_game_id g
      = if (v.filter (· ≠ c0)).isEmpty then none
        else some (v.filter (· ≠ c0)) := by
  have h2 : tbl_get (st.client_ids_by_game_id.map
      (fun p => (p.1, p.2.filter (· ≠ c0)))) g = some (v.filter (· ≠ c0)) := by
    rw [tbl_get_mapval, hget]
    rfl
  have hkeys2 : ((st.client_ids_by_game_id.map
      (fun p => (p.1, p.2.filter (· ≠ c0)))).map Prod.fst).Nodup := by
    rw [keys_mapval]
    exact hkeys
  have h3 := tbl_get_filter_some (fun p => !p.2.isEmpty) _ g
    (v.filter (· ≠ c0)) hkeys2 h2
  rw [show tbl_get (purge_dead_games
      (remove_from_games st c0).1).client_ids_by_game_id g
    = tbl_get ((st.client_ids_by_game_id.map
        (fun p => (p.1, p.2.filter (· ≠ c0)))).filter
          (fun p => !p.2.isEmpty)) g from rfl]
  have h4 : ((fun p : GameId × List ClientId => !p.2.isEmpty)
      (g, v.filter (· ≠ c0))) = !(v.filter (· ≠ c0)).isEmpty := rfl
  rw [h4] at h3
  rw [h3]
  cases hE : (v.filter (· ≠ c0)).isEmpty with
  | true => simp
  | false => simp

theorem filter_ne_eq_self_of_not_mem {v : List ClientId} {c0 : ClientId}
    (h : c0 ∉ v) : v.filter (· ≠ c0) = v := by
  apply List.filter_eq_self.mpr
  intro a ha
  simp only [decide_eq_true_eq]
  intro hac
  exact h (hac ▸ ha)

theorem mem_send_client_snapshots (st : CoordState) (gs : List GameId)
    (g : GameId) (cids : List ClientId) (c : ClientId)
    (hg : g ∈ gs) (hget : tbl_get st.client_ids_by_game_id g = some cids)
    (hm : c ∈ cids) (hws : (st.ws_by_client_id c).isSome = true) :
    Effect.sendToClient c (WireMsg.clientSnapshot g cids)
      ∈ send_client_snapshots st gs := by
  unfold send_client_snapshots
  apply mem_flatten_map _ _ g
  · exact List.mem_dedup.mpr hg
  · have hge : game_exists st g = true := by
      unfold game_exists
      rw [hget]
      rfl
    rw [if_pos hge]
    unfold send_client_snapshot
    rw [hget]
    obtain ⟨wr, hwr⟩ := Option.isSome_iff_exists.mp hws
    exact mem_flatten_map _ _ c _ hm (by simp [send_message, hwr])

theorem mem_send_client_snapshot (st : CoordState) (g : GameId)
    (cids : List ClientId) (c : ClientId)
    (hget : tbl_get st.client_ids_by_game_id g = some cids)
    (hm : c ∈ cids) (hws : (st.ws_by_client_id c).isSome = true) :
    Effect.sendToClient c (WireMsg.clientSnapshot g cids)
      ∈ send_client_snapshot st g := by
  unfold send_client_snapshot
  rw [hget]
  obtain ⟨wr, hwr⟩ := Option.isSome_iff_exists.mp hws
  exact mem_flatten_map _ _ c _ hm (by simp [send_message, hwr])

/-- Core of the snapshot argument for the removal path: after removing a
client from all games and purging, every still-existing game whose entry
changed receives a snapshot delivered to each member with a registered
session. -/
theorem disconnect_snapshot_core (st2 : CoordState) (c0 : ClientId)
    (g : GameId) (cids : List ClientId) (c : ClientId)
    (hkeys : nodupGameKeys st2) (hne : noEmptyGames st2)
    (hchanged : tbl_get (purge_dead_games
        (remove_from_games st2 c0).1).client_ids_by_game_id g
      ≠ tbl_get st2.client_ids_by_game_id g)
    (hex : tbl_get (purge_dead_games
        (remove_from_games st2 c0).1).client_ids_by_game_id g = some cids)
    (hm : c ∈ cids)
    (hws : (st2.ws_by_client_id c).isSome = true) :
    Effect.sendToClient c (WireMsg.clientSnapshot g cids)
      ∈ send_client_snapshots (purge_dead_games (remove_from_games st2 c0).1)
          (remove_from_games st2 c0).2 := by
  cases hvpre : tbl_get st2.client_ids_by_game_id g with
  | none =>
    rw [remove_purge_get_none st2 c0 g hvpre] at hex
    exact Option.noConfusion hex
  | some v =>
    have hmem1 : (g, v) ∈ st2.client_ids_by_game_id := tbl_get_mem hvpre
    have hvne : v ≠ [] := hne (g, v) hmem1
    by_cases hc0v : c0 ∈ v
    · exact mem_send_client_snapshots _ _ g cids c
        (mem_modified_of_contains hvpre hc0v) hex hm hws
    · rw [remove_purge_get_some st2 c0 g v hkeys hvpre,
        filter_ne_eq_self_of_not_mem hc0v, hvpre] at hchanged
      have hvE : v.isEmpty = false := by
        cases hvv : v with
        | nil => exact absurd hvv hvne
        | cons a as => rfl
      rw [hvE] at hchanged
      simp at hchanged

/-- C6 (amended): after any event, in a well-formed coordinator state
(dict keys unique, no empty game entries, no client in two games — the
data model's own invariants, the last of which the StartNewGame handler
can itself break), every game whose table entry changed and still exists
has a ClientSnapshot carrying exactly its current member list delivered
to each of its members whose client id currently has a registered
session; members without one are silently skipped. -/
theorem c6_snapshot_completeness_amended (st : CoordState) (e : Event)
    (g : GameId) (cids : List ClientId) (c : ClientId)
    (hkeys : nodupGameKeys st) (hdis : disjointGames st)
    (hne : noEmptyGames st)
    (hchanged : tbl_get (step st e).st.client_ids_by_game_id g
      ≠ tbl_get st.client_ids_by_game_id g)
    (hex : tbl_get (step st e).st.client_ids_by_game_id g = some cids)
    (hm : c ∈ cids)
    (hws : ((step st e).st.ws_by_client_id c).isSome = true) :
    Effect.sendToClient c (WireMsg.clientSnapshot g cids)
      ∈ (step st e).effects := by
  cases e with
  | helloMsg w => exact absurd rfl hchanged
  | clientID w c2 => exact absurd rfl hchanged
  | authState w s j =>
    have hst : (step st (Event.authState w s j)).st.client_ids_by_game_id
        = st.client_ids_by_game_id := by
      simp only [step]
      unfold handle_AuthoritativeStateMessage
      split <;> try rfl
      split <;> try rfl
      split <;> try rfl
      split <;> try rfl
      split <;> rfl
    rw [hst] at hchanged
    exact absurd rfl hchanged
  | startNewGame w gid =>
    revert hchanged hex hws
    simp only [step]
    unfold handle_StartNewGameMessage
    split
    · intro hchanged _ _
      exact absurd rfl hchanged
    · intro hchanged _ _
      exact absurd rfl hchanged
    · rename_i xSc c0 heqL
      split
      · intro hchanged _ _
        exact absurd rfl hchanged
      · rename_i hge
        intro hchanged hex hws
        by_cases hgg : g = gid
        · subst hgg
          have hex2 : tbl_get (tbl_set st.client_ids_by_game_id g [c0]) g
              = some cids := hex
          rw [tbl_get_set_self] at hex2
          injection hex2 with hcids
          subst hcids
          exact mem_send_client_snapshot _ g _ c (tbl_get_set_self _ _ _)
            hm hws
        · have hun : tbl_get (tbl_set st.client_ids_by_game_id gid [c0]) g
              = tbl_get st.client_ids_by_game_id g :=
            tbl_get_set_ne _ _ _ _ hgg
          exact absurd hun hchanged
  | joinGame w gid =>
    revert hchanged hex hws
    simp only [step]
    unfold handle_JoinGameMessage
    split
    · intro hchanged _ _
      exact absurd rfl hchanged
    · intro hchanged _ _
      exact absurd rfl hchanged
    · rename_i xSc c0 heqL
      split
      · rename_i hge
        simp only []
        split
        · rename_i hpu
          intro hchanged hex hws
          exfalso
          have hvgx : (tbl_get st.client_ids_by_game_id gid).isSome = true := hge
          obtain ⟨vg, hvg⟩ := Option.isSome_iff_exists.mp hvgx
          have h5 := remove_purge_get_some st c0 gid vg hkeys hvg
          rw [hpu] at h5
          have hEmpty : (vg.filter (· ≠ c0)).isEmpty = true := by
            by_contra hcon
            rw [Bool.eq_false_iff.mpr hcon] at h5
            simp at h5
          have hvg_ne : vg ≠ [] := hne (gid, vg) (tbl_get_mem hvg)
          have hc0vg : c0 ∈ vg := by
            cases hv : vg with
            | nil => exact absurd hv hvg_ne
            | cons a as =>
              by_cases hac : a = c0
              · rw [hac]
                exact List.mem_cons_self c0 as
              · exfalso
                rw [hv] at hEmpty
                rw [List.filter_cons, if_pos (by simp [hac])] at hEmpty
                simp at hEmpty
          by_cases hgg : g = gid
          · subst hgg
            rw [hpu] at hex
            exact Option.noConfusion hex
          · cases hvpre : tbl_get st.client_ids_by_game_id g with
            | none =>
              rw [remove_purge_get_none st c0 g hvpre] at hex
              exact Option.noConfusion hex
            | some v =>
              have hmem1 : (g, v) ∈ st.client_ids_by_game_id :=
                tbl_get_mem hvpre
              by_cases hc0v : c0 ∈ v
              · have hmem2 : (gid, vg) ∈ st.client_ids_by_game_id :=
                  tbl_get_mem hvg
                have hRsymm : Symmetric
                    (fun p q : GameId × List ClientId =>
                      ∀ x ∈ p.2, x ∉ q.2) := by
                  intro p q h x hxq hxp
                  exact h x hxp hxq
                have hR := List.Pairwise.forall hRsymm hdis hmem1 hmem2
                  (fun hpq => hgg (congrArg Prod.fst hpq))
                exact hR c0 hc0v hc0vg
              · rw [remove_purge_get_some st c0 g v hkeys hvpre,
                  filter_ne_eq_self_of_not_mem hc0v, hvpre] at hchanged
                have hvne : v ≠ [] := hne (g, v) hmem1
                have hvE : v.isEmpty = false := by
                  cases hvv : v with
                  | nil => exact absurd hvv hvne
                  | cons a as => rfl
                rw [hvE] at hchanged
                simp at hchanged
        · rename_i cids2 hpu
          intro hchanged hex hws
          have hex0 : tbl_get (tbl_set (purge_dead_games
              (remove_from_games st c0).1).client_ids_by_game_id gid
                (pySetAdd cids2 c0)) g = some cids := hex
          by_cases hgg : g = gid
          · subst hgg
            rw [tbl_get_set_self] at hex0
            injection hex0 with hcids
            subst hcids
            exact mem_send_client_snapshots _ _ g _ c
              (List.mem_append_right _ (List.mem_singleton_self g))
              (tbl_get_set_self _ _ _) hm hws
          · rw [tbl_get_set_ne _ _ _ _ hgg] at hex0
            cases hvpre : tbl_get st.client_ids_by_game_id g with
            | none =>
              rw [remove_purge_get_none st c0 g hvpre] at hex0
              exact Option.noConfusion hex0
            | some v =>
              have hmem1 : (g, v) ∈ st.client_ids_by_game_id :=
                tbl_get_mem hvpre
              by_cases hc0v : c0 ∈ v
              · exact mem_send_client_snapshots _ _ g cids c
                  (List.mem_append_left _
                    (mem_modified_of_contains hvpre hc0v))
                  hex hm hws
              · exfalso
                have hchanged2 : tbl_get (tbl_set (purge_dead_games
                    (remove_from_games st c0).1).client_ids_by_game_id gid
                      (pySetAdd cids2 c0)) g
                    ≠ tbl_get st.client_ids_by_game_id g := hchanged
                rw [tbl_get_set_ne _ _ _ _ hgg,
                  remove_purge_get_some st c0 g v hkeys hvpre,
                  filter_ne_eq_self_of_not_mem hc0v, hvpre] at hchanged2
                have hvne : v ≠ [] := hne (g, v) hmem1
                have hvE : v.isEmpty = false := by
                  cases hvv : v with
                  | nil => exact absurd hvv hvne
                  | cons a as => rfl
                rw [hvE] at hchanged2
                simp at hchanged2
      · intro hchanged _ _
        exact absurd rfl hchanged
  | disconnect w =>
    revert hchanged hex hws
    show tbl_get (remove_session st w).1.client_ids_by_game_id g
        ≠ tbl_get st.client_ids_by_game_id g →
      tbl_get (remove_session st w).1.client_ids_by_game_id g = some cids →
      ((remove_session st w).1.ws_by_client_id c).isSome = true →
      Effect.sendToClient c (WireMsg.clientSnapshot g cids)
        ∈ (remove_session st w).2
    unfold remove_session
    split
    · intro hchanged _ _
      exact absurd rfl hchanged
    · intro hchanged _ _
      exact absurd rfl hchanged
    · rename_i c0 heqq
      simp only []
      split
      · intro hchanged hex hws
        exact disconnect_snapshot_core _ c0 g cids c hkeys hne
          hchanged hex hm hws
      · intro hchanged hex hws
        exact disconnect_snapshot_core _ c0 g cids c hkeys hne
          hchanged hex hm hws

/-- Witness for C6 (amended) at a concrete input: when B's session
disconnects, game g's entry changes to [A] and remaining member A, whose
client id has a registered session, is sent the snapshot [A]. -/
theorem c6_snapshot_completeness_amended_witness :
    (nodupGameKeys c6wit ∧ disjointGames c6wit ∧ noEmptyGames c6wit ∧
      tbl_get (step c6wit (Event.disconnect 2)).st.client_ids_by_game_id "g"
        ≠ tbl_get c6wit.client_ids_by_game_id "g" ∧
      tbl_get (step c6wit (Event.disconnect 2)).st.client_ids_by_game_id "g"
        = some ["A"] ∧
      "A" ∈ (["A"] : List ClientId) ∧
      ((step c6wit (Event.disconnect 2)).st.ws_by_client_id "A").isSome
        = true) ∧
    Effect.sendToClient "A" (WireMsg.clientSnapshot "g" ["A"])
      ∈ (step c6wit (Event.disconnect 2)).effects :=
  ⟨⟨by unfold nodupGameKeys; decide, by unfold disjointGames; decide,
      by unfold noEmptyGames; decide, by decide, by decide, by decide,
      by decide⟩,
    c6_snapshot_completeness_amended c6wit (Event.disconnect 2) "g" ["A"] "A"
      (by unfold nodupGameKeys; decide) (by unfold disjointGames; decide)
      (by unfold noEmptyGames; decide) (by decide) (by decide) (by decide)
      (by decide)⟩
